import Mathlib

/-!
Shallow embedding of the 8086 decoder/emulator (Rust sources under src/):
utility.rs (BitTrie), opcodes.rs (Opcode, OPCODE_TRIE), registers.rs
(Register, RegisterFile, flags, retrieve_register) and main.rs
(decode arms, process_irm, process_rmr, process_jmp, perform_arithmetic).
Machine integers are modelled as Nat (unsigned) and Int (signed) with
explicit reductions mod 2^8 / 2^16 where Rust wraps or truncates; Rust
panics and process exits become Except.error.
-/

/-- Decidable equality for Except results, used to evaluate the embedded
fallible functions on concrete inputs. -/
instance {ε α : Type} [DecidableEq ε] [DecidableEq α] : DecidableEq (Except ε α) :=
  fun x y =>
    match x, y with
    | .ok a, .ok b =>
      if h : a = b then .isTrue (by rw [h])
      else .isFalse (by intro hh; injection hh; contradiction)
    | .ok _, .error _ => .isFalse (by intro hh; injection hh)
    | .error _, .ok _ => .isFalse (by intro hh; injection hh)
    | .error e, .error f =>
      if h : e = f then .isTrue (by rw [h])
      else .isFalse (by intro hh; injection hh; contradiction)

namespace Emu8086

/-- Opcode enum from opcodes.rs. -/
inductive Opcode where
  | MovRmR
  | MovIR
  | MovIRm
  | MovAM
  | MovMA
  | AddRmR
  | AddIA
  | AddIRm
  | SubRmR
  | SubIA
  | SubIRm
  | CmpRmR
  | CmpIRm
  | CmpIA
  | Je
  | Jl
  | Jle
  | Jb
  | Jbe
  | Jp
  | Jo
  | Js
  | Jne
  | Jnl
  | Jg
  | Jnb
  | Ja
  | Jnp
  | Jno
  | Jns
  | Loop
  | Loopz
  | Loopnz
  | Jcxz
  deriving DecidableEq, Repr

/-- BitTrie from utility.rs. The Rust children field is a HashMap keyed by the
bit value, and both insert and match_bits only ever use keys 0 and 1
(the key is always computed as (x >> i) & 1), so the map is embedded as the
two optional children for keys 0 and 1. -/
inductive BitTrie where
  | mk (value : Option Opcode) (child0 : Option BitTrie) (child1 : Option BitTrie)

/-- Empty trie (BitTrie::default in Rust). -/
def BitTrie.empty : BitTrie := .mk none none none

/-- Terminal value stored at this node. -/
def BitTrie.value : BitTrie → Option Opcode
  | .mk v _ _ => v

/-- Child for bit key b (HashMap::get on the children map; keys are 0 or 1). -/
def BitTrie.child (t : BitTrie) (b : Nat) : Option BitTrie :=
  match t with
  | .mk _ c0 c1 => if b = 0 then c0 else c1

/-- Bits of a pattern, most significant first: the sequence (bits >> i) & 1
for i = len-1 down to 0, as iterated by BitTrie::insert. -/
def patternBits (bits len : Nat) : List Nat :=
  (List.range len).reverse.map fun i => bits >>> i &&& 1

/-- Bits of an input byte, most significant first: (byte >> i) & 1 for
i = 7 down to 0, as iterated by BitTrie::match_bits. -/
def byteBits (byte : Nat) : List Nat :=
  (List.range 8).reverse.map fun i => byte >>> i &&& 1

/-- Core of BitTrie::insert: descend the listed bits, creating missing
children (entry(bit).or_default()), and store the value at the final node. -/
def BitTrie.insertBits : BitTrie → List Nat → Opcode → BitTrie
  | .mk _ c0 c1, [], v => .mk (some v) c0 c1
  | .mk val c0 c1, b :: bs, v =>
    if b = 0 then
      .mk val (some ((c0.getD BitTrie.empty).insertBits bs v)) c1
    else
      .mk val c0 (some ((c1.getD BitTrie.empty).insertBits bs v))

/-- BitTrie::insert from utility.rs. -/
def BitTrie.insert (t : BitTrie) (bits len : Nat) (v : Opcode) : BitTrie :=
  t.insertBits (patternBits bits len) v

/-- Core of BitTrie::match_bits: walk the byte's bits MSB-first; entering a
child whose value is set returns that value together with the number of bits
consumed so far (matched_len = 8 - i in the Rust loop); a missing child stops
the walk with none. -/
def BitTrie.matchBitsAux : BitTrie → List Nat → Nat → Option (Opcode × Nat)
  | _, [], _ => none
  | t, b :: bs, depth =>
    match t.child b with
    | none => none
    | some next =>
      match next.value with
      | some v => some (v, depth + 1)
      | none => next.matchBitsAux bs (depth + 1)

/-- BitTrie::match_bits from utility.rs. -/
def BitTrie.match_bits (t : BitTrie) (byte : Nat) : Option (Opcode × Nat) :=
  t.matchBitsAux (byteBits byte) 0

/-- The insert calls made when building OPCODE_TRIE in opcodes.rs,
in source order: (bits, len, opcode). -/
def opcodeInserts : List (Nat × Nat × Opcode) :=
  [ (0b100010, 6, .MovRmR),
    (0b1011, 4, .MovIR),
    (0b1100011, 7, .MovIRm),
    (0b1010001, 7, .MovAM),
    (0b1010000, 7, .MovMA),
    (0b000000, 6, .AddRmR),
    (0b100000, 6, .AddIRm),
    (0b0000010, 7, .AddIA),
    (0b001010, 6, .SubRmR),
    (0b0010110, 7, .SubIA),
    (0b001110, 6, .CmpRmR),
    (0b0011110, 7, .CmpIA),
    (0b01110100, 8, .Je),
    (0b01111100, 8, .Jl),
    (0b01111110, 8, .Jle),
    (0b01110010, 8, .Jb),
    (0b01110110, 8, .Jbe),
    (0b01111010, 8, .Jp),
    (0b01110000, 8, .Jo),
    (0b01111000, 8, .Js),
    (0b01110101, 8, .Jne),
    (0b01111101, 8, .Jnl),
    (0b01111111, 8, .Jg),
    (0b01110011, 8, .Jnb),
    (0b01110111, 8, .Ja),
    (0b01111011, 8, .Jnp),
    (0b01110001, 8, .Jno),
    (0b01111001, 8, .Jns),
    (0b11100010, 8, .Loop),
    (0b11100001, 8, .Loopz),
    (0b11100000, 8, .Loopnz),
    (0b11100011, 8, .Jcxz) ]

/-- OPCODE_TRIE from opcodes.rs: the empty trie after all insert calls. -/
def OPCODE_TRIE : BitTrie :=
  opcodeInserts.foldl (fun t e => t.insert e.1 e.2.1 e.2.2) BitTrie.empty

/-- Pattern (bits, len) matches the leading bits of a byte: the byte's top
len bits, read most-significant-bit first, equal the pattern. -/
def patternMatchesByte (bits len byte : Nat) : Prop :=
  byte >>> (8 - len) = bits

instance (bits len byte : Nat) : Decidable (patternMatchesByte bits len byte) :=
  inferInstanceAs (Decidable (_ = _))

/-- Register enum from registers.rs (16 names; byte registers alias the
halves of the first four word registers). -/
inductive Register where
  | AL
  | CL
  | DL
  | BL
  | AH
  | CH
  | DH
  | BH
  | AX
  | CX
  | DX
  | BX
  | SP
  | BP
  | SI
  | DI
  deriving DecidableEq, Repr

/-- REGISTERS table from registers.rs: 2 rows (w = 0 byte, w = 1 word) of
8 registers each, indexed by the 3-bit reg/rm field. -/
def REGISTERS : List (List Register) :=
  [ [.AL, .CL, .DL, .BL, .AH, .CH, .DH, .BH],
    [.AX, .CX, .DX, .BX, .SP, .BP, .SI, .DI] ]

/-- Flag enum from registers.rs with its discriminant bit values. -/
inductive Flag where
  | Carry
  | Zero
  | Sign
  | Parity
  deriving DecidableEq, Repr

/-- Discriminant of the Flag enum (flag as u8 in Rust). -/
def Flag.val : Flag → Nat
  | .Carry => 1
  | .Zero => 2
  | .Sign => 4
  | .Parity => 8

/-- RegisterRow bitfield from registers.rs: low byte (bits 0-7) and high
byte (bits 8-15) of one 16-bit register. Each field holds a u8 value. -/
structure RegisterRow where
  low : Nat
  high : Nat
  deriving DecidableEq, Repr

/-- RegisterRow::new: both bytes zero. -/
def RegisterRow.new : RegisterRow := ⟨0, 0⟩

/-- RegisterRow::get: u16::from_le_bytes [low, high]. -/
def RegisterRow.get (r : RegisterRow) : Nat := r.low + 256 * r.high

/-- set_low generated by the bitfield: stores the u8-truncated value in the
low byte (callers pass value as u8, i.e. value mod 256). -/
def RegisterRow.set_low (r : RegisterRow) (v : Nat) : RegisterRow :=
  { r with low := v % 256 }

/-- set_high generated by the bitfield: stores the u8-truncated value in the
high byte. -/
def RegisterRow.set_high (r : RegisterRow) (v : Nat) : RegisterRow :=
  { r with high := v % 256 }

/-- RegisterRow::from_bytes(value.to_le_bytes()) for a u16 value: low byte
value mod 256, high byte value / 256 (mod 256 guards inputs above 2^16,
which the Rust u16 type excludes). -/
def RegisterRow.from_bytes (v : Nat) : RegisterRow :=
  ⟨v % 256, v / 256 % 256⟩

/-- RegisterFile from registers.rs: eight RegisterRow fields and the u8
flags register. The concrete repository variant driven by main.rs also
stores an instruction pointer; see the ip field below.
Modelled from the spec: main.rs reads Register::IP and calls move_ip_by_n,
whose definitions are not among the given sources; per the spec the
RegisterFile additionally holds an instruction pointer (a byte offset into
the program buffer, a 16-bit register like the others), so it is embedded
as the extra field ip. -/
structure RegisterFile where
  ax : RegisterRow
  cx : RegisterRow
  dx : RegisterRow
  bx : RegisterRow
  sp : RegisterRow
  bp : RegisterRow
  si : RegisterRow
  di : RegisterRow
  flags : Nat
  ip : Nat
  deriving DecidableEq, Repr

/-- RegisterFile::new: every register row zeroed, flags 0, ip 0. -/
def RegisterFile.new : RegisterFile :=
  ⟨.new, .new, .new, .new, .new, .new, .new, .new, 0, 0⟩

/-- RegisterFile::get from registers.rs. -/
def RegisterFile.get (rf : RegisterFile) (reg : Register) : Nat :=
  match reg with
  | .AL => rf.ax.low
  | .CL => rf.cx.low
  | .DL => rf.dx.low
  | .BL => rf.bx.low
  | .AH => rf.ax.high
  | .CH => rf.cx.high
  | .DH => rf.dx.high
  | .BH => rf.bx.high
  | .AX => rf.ax.get
  | .CX => rf.cx.get
  | .DX => rf.dx.get
  | .BX => rf.bx.get
  | .SP => rf.sp.get
  | .BP => rf.bp.get
  | .SI => rf.si.get
  | .DI => rf.di.get

/-- RegisterFile::set from registers.rs: byte registers go through
set_low/set_high (value as u8), word registers through
RegisterRow::from_bytes(value.to_le_bytes()). -/
def RegisterFile.set (rf : RegisterFile) (reg : Register) (value : Nat) :
    RegisterFile :=
  match reg with
  | .AL => { rf with ax := rf.ax.set_low value }
  | .CL => { rf with cx := rf.cx.set_low value }
  | .DL => { rf with dx := rf.dx.set_low value }
  | .BL => { rf with bx := rf.bx.set_low value }
  | .AH => { rf with ax := rf.ax.set_high value }
  | .CH => { rf with cx := rf.cx.set_high value }
  | .DH => { rf with dx := rf.dx.set_high value }
  | .BH => { rf with bx := rf.bx.set_high value }
  | .AX => { rf with ax := RegisterRow.from_bytes value }
  | .CX => { rf with cx := RegisterRow.from_bytes value }
  | .DX => { rf with dx := RegisterRow.from_bytes value }
  | .BX => { rf with bx := RegisterRow.from_bytes value }
  | .SP => { rf with sp := RegisterRow.from_bytes value }
  | .BP => { rf with bp := RegisterRow.from_bytes value }
  | .SI => { rf with si := RegisterRow.from_bytes value }
  | .DI => { rf with di := RegisterRow.from_bytes value }

/-- RegisterFile::set_flag: flags |= flag as u8. -/
def RegisterFile.set_flag (rf : RegisterFile) (f : Flag) : RegisterFile :=
  { rf with flags := rf.flags ||| f.val }

/-- RegisterFile::clear_flag: flags &= !(flag as u8); the u8 complement of a
single-bit mask is 255 ^^^ mask. -/
def RegisterFile.clear_flag (rf : RegisterFile) (f : Flag) : RegisterFile :=
  { rf with flags := rf.flags &&& (255 ^^^ f.val) }

/-- RegisterFile::get_flag: flags & (flag as u8) != 0. -/
def RegisterFile.get_flag (rf : RegisterFile) (f : Flag) : Bool :=
  rf.flags &&& f.val != 0

/-- RegisterFile::set_flags_from_result(result: i16) from registers.rs:
Zero iff result == 0, Sign iff result < 0, Parity iff result % 2 == 0. -/
def RegisterFile.set_flags_from_result (rf : RegisterFile) (result : Int) :
    RegisterFile :=
  let rf := if result = 0 then rf.set_flag .Zero else rf.clear_flag .Zero
  let rf := if result < 0 then rf.set_flag .Sign else rf.clear_flag .Sign
  if result % 2 = 0 then rf.set_flag .Parity else rf.clear_flag .Parity

/-- Modelled from the spec: move_ip_by_n is called by main.rs but its
definition is not among the given sources; per the spec it advances the
instruction pointer by n bytes, where n may be negative (signed relative
jump displacement), the ip being a 16-bit byte offset, hence the reduction
mod 2^16. -/
def RegisterFile.move_ip_by_n (rf : RegisterFile) (n : Int) : RegisterFile :=
  { rf with ip := (((rf.ip : Int) + n) % 65536).toNat }

/-- retrieve_register from registers.rs: REGISTERS.get(w
).and_then(row.get(index)).copied().ok_or_else(invalid index error). -/
def retrieve_register (index w : Nat) : Except String Register :=
  match (REGISTERS.get? w).bind fun row => row.get? index with
  | some r => .ok r
  | none => .error ("Invalid register index")

/-- Reinterpretation of a u16 value as i16 (the Rust cast memory.get(dest)
as i16); the mod 2^16 guards inputs above the u16 range, which the Rust
types exclude. -/
def toSigned16 (n : Nat) : Int :=
  if n % 65536 < 32768 then (n % 65536 : Nat) else (n % 65536 : Nat) - 65536

/-- Wrapping reduction of an integer to the signed 16-bit range, the result
of overflowing i16 arithmetic. -/
def wrap16 (n : Int) : Int := (n + 32768) % 65536 - 32768

/-- Cast of an i16 value to u16 (value as u16): two's-complement
reinterpretation, i.e. reduction mod 2^16 into 0..65535. -/
def toUnsigned16 (n : Int) : Nat := (n % 65536).toNat

/-- Cast of a byte to i8 and then i16 (b as i8 as i16): sign extension of
an 8-bit value, replicating bit 7. -/
def signExtend8 (b : Nat) : Int :=
  if b % 256 < 128 then (b % 256 : Nat) else (b % 256 : Nat) - 256

/-- Value of ((hi as i16) << 8) | (lo as i16) for byte values lo, hi as
computed throughout main.rs: the i16 shift wraps and the or merges the
disjoint low byte, giving the i16 reinterpretation of lo + 256 * hi. -/
def i16PairLoHi (lo hi : Nat) : Int := toSigned16 (lo % 256 + 256 * (hi % 256))

/-- Number of displacement bytes read by the MovIRm arm of main (main.rs
lines 102-119): 0 for mode 0b11, otherwise the mode value itself; there is
no mod=00/rm=110 special case in this arm. -/
def movIRmDisplacementRegisters (b1 : Nat) : Nat :=
  let mode := (b1 % 256) >>> 6
  if mode = 0b11 then 0 else mode

/-- Number of displacement bytes read by the AddIRm/SubIRm/CmpIRm arm of
main (main.rs lines 120-144): 0 for mode 0b11, else 2 whenever rm = 0b110
(for every non-register mode), else the mode value. -/
def arithIRmDisplacementRegisters (b1 : Nat) : Nat :=
  let regormem := b1 % 256 &&& 0b111
  let mode := (b1 % 256) >>> 6
  if mode = 0b11 then 0
  else if regormem = 0b110 then 2 else mode

/-- Number of displacement bytes read by the MovRmR/AddRmR/SubRmR/CmpRmR arm
of main (main.rs lines 155-176): 0 for mode 0b11, 2 for the mod=00/rm=110
direct-address special case, else the mode value. -/
def rmrDisplacementRegisters (b1 : Nat) : Nat :=
  let mode := (b1 % 256) >>> 6
  if mode = 0b11 then 0
  else if mode = 0b00 ∧ b1 % 256 &&& 0b111 = 0b110 then 2 else mode

/-- Opcode selection in process_irm (main.rs lines 232-241): for AddIRm the
reg field of the mode byte picks the actual operation (000 add, 101 sub,
111 cmp, anything else panics); other opcodes pass through. -/
def irmSelectOp (op : Opcode) (reg : Nat) : Except String Opcode :=
  if op = .AddIRm then
    match reg with
    | 0b101 => .ok .SubIRm
    | 0b000 => .ok .AddIRm
    | 0b111 => .ok .CmpIRm
    | _ => .error ("Invalid reg for AddRmR")
  else .ok op

/-- Immediate value displayed by the mode 0b00 branch of process_irm
(main.rs lines 256-275, the second let value binding): sign-extended
bytes[2] when size = 3, sign-extended bytes[4] when size = 5, otherwise the
16-bit little-endian pair bytes[2], bytes[3]. -/
def irmMode0Value (bytes : List Nat) (size : Nat) : Int :=
  if size = 3 then signExtend8 (bytes.getD 2 0)
  else if size = 5 then signExtend8 (bytes.getD 4 0)
  else i16PairLoHi (bytes.getD 2 0) (bytes.getD 3 0)

/-- Immediate value displayed by the mode 0b01 branch of process_irm
(main.rs line 290): bytes[3] as i8, numerically the sign-extended byte. -/
def irmMode1Value (bytes : List Nat) : Int := signExtend8 (bytes.getD 3 0)

/-- Immediate value displayed by the mode 0b10 branch of process_irm
(main.rs lines 310-314): for the arithmetic forms bytes[4] as i16, a
zero-extension of the byte; otherwise the 16-bit little-endian pair
bytes[4], bytes[5]. -/
def irmMode2Value (bytes : List Nat) (isArith : Bool) : Int :=
  if isArith then (bytes.getD 4 0 % 256 : Nat)
  else i16PairLoHi (bytes.getD 4 0) (bytes.getD 5 0)

/-- Immediate value used by the mode 0b11 branch of process_irm (main.rs
lines 334-340), both executed and displayed: sign-extended bytes[2] when
s = 1 and w = 1, sign-extended bytes[2] when w = 0, otherwise the 16-bit
little-endian pair bytes[2], bytes[3]. -/
def irmMode3Value (bytes : List Nat) (s w : Nat) : Int :=
  if s = 1 ∧ w = 1 then signExtend8 (bytes.getD 2 0)
  else if w = 0 then signExtend8 (bytes.getD 2 0)
  else i16PairLoHi (bytes.getD 2 0) (bytes.getD 3 0)

/-- move_data from main.rs: memory.set(dest, value as u16). -/
def move_data (dest : Register) (value : Int) (memory : RegisterFile) :
    RegisterFile :=
  memory.set dest (toUnsigned16 value)

/-- perform_arithmetic from main.rs (lines 537-553): reinterpret the
destination as i16, compute the i16 result (add for the ADD forms,
subtract for the SUB and CMP forms; i16 arithmetic wraps), set the flags
from it, and write it back through move_data unless the opcode is CmpRmR
(only the register-to-register CMP skips the write-back). A non-arithmetic
opcode panics. -/
def perform_arithmetic (op : Opcode) (dest : Register) (value : Int)
    (memory : RegisterFile) : Except String RegisterFile := do
  let current_value : Int := toSigned16 (memory.get dest)
  let result : Int ←
    match op with
    | .AddRmR | .AddIA | .AddIRm => pure (wrap16 (current_value + value))
    | .SubRmR | .SubIA | .SubIRm => pure (wrap16 (current_value - value))
    | .CmpRmR | .CmpIA | .CmpIRm => pure (wrap16 (current_value - value))
    | _ => .error ("Unsupported arithmetic operation")
  let memory := memory.set_flags_from_result result
  let memory := if op ≠ .CmpRmR then move_data dest result memory else memory
  pure memory

/-- process_jmp from main.rs (lines 461-479): advance ip by the instruction
length, check size == 2 (assert), read the displacement byte as i8; for Jne
add the displacement to ip when the Zero flag is clear; every other jump
opcode panics before printing its trace line. -/
def process_jmp (bytes : List Nat) (size : Nat) (op : Opcode)
    (memory : RegisterFile) : Except String RegisterFile := do
  let memory := memory.move_ip_by_n (bytes.length : Int)
  if size ≠ 2 then .error ("Invalid size for jmp") else
  let value : Int := signExtend8 (bytes.getD 1 0)
  match op with
  | .Jne =>
    let memory :=
      if ¬ memory.get_flag .Zero then memory.move_ip_by_n value else memory
    pure memory
  | _ => .error ("Unsupported jump opcode")

/-- process_ir from main.rs (lines 481-519), the immediate-to-register /
immediate-to-accumulator arm: advance ip, check the size assert, read the
immediate (16-bit little-endian pair when size = 3, sign-extended byte when
size = 2), pick the destination (AX/AL for the arithmetic accumulator
forms, the reg-field register for MovIR) and move the immediate into it;
no arithmetic is performed and no flag is touched for any of these forms. -/
def process_ir (bytes : List Nat) (size : Nat) (op : Opcode)
    (memory : RegisterFile) : Except String RegisterFile := do
  let memory := memory.move_ip_by_n (bytes.length : Int)
  if ¬ (size = 3 ∨ size = 2) then .error ("Invalid size for ir") else
  let is_arithmetic := op = .AddIA ∨ op = .SubIA ∨ op = .CmpIA
  let w := if op = .AddIA then (bytes.getD 0 0) &&& 0b1
           else ((bytes.getD 0 0) >>> 3) &&& 0b1
  let reg := (bytes.getD 0 0) &&& 0b111
  let value : Int :=
    if size = 3 then i16PairLoHi (bytes.getD 1 0) (bytes.getD 2 0)
    else signExtend8 (bytes.getD 1 0)
  let dest ←
    if is_arithmetic then
      pure (if size = 3 then Register.AX else Register.AL)
    else
      match retrieve_register reg w with
      | .ok r => pure r
      | .error e => .error e
  pure (move_data dest value memory)

/-- Specification-side definition for C1, written from the spec sentence
and to be compared with BitTrie.match_bits: the longest inserted pattern
that matches the byte's leading bits, tested from 8 bits down to 1 bit,
most-significant-bit first, together with its length; none if no inserted
pattern matches. -/
def longestInsertedMatch (inserts : List (Nat × Nat × Opcode)) (byte : Nat) :
    Option (Opcode × Nat) :=
  (List.range 8).reverse.findSome? fun i =>
    let len := i + 1
    (inserts.find? fun e =>
        e.2.1 = len && decide (patternMatchesByte e.1 len byte)).map
      fun e => (e.2.2, len)

/-- Two-pattern insertion list used to separate shortest-first matching
from the longest-match specification: a 1-bit pattern 1 and a 2-bit
pattern 11, the first a proper prefix of the second. -/
def twoPatternInserts : List (Nat × Nat × Opcode) :=
  [(0b1, 1, .MovIR), (0b11, 2, .MovIRm)]

/-- Trie built from the two nested patterns by the same insert calls. -/
def twoPatternTrie : BitTrie :=
  twoPatternInserts.foldl (fun t e => t.insert e.1 e.2.1 e.2.2) BitTrie.empty

/-- State reached from the zeroed register file by a sequence of
RegisterFile.set operations. -/
def applyOps (ops : List (Register × Nat)) : RegisterFile :=
  ops.foldl (fun rf e => rf.set e.1 e.2) RegisterFile.new

/-- Well-formedness of a register row: both bytes are u8 values, as the
Rust B8 bitfields guarantee. -/
def RowWF (r : RegisterRow) : Prop := r.low < 256 ∧ r.high < 256

/-- Well-formedness of the register file: every row holds u8 bytes. -/
def RegisterFileWF (rf : RegisterFile) : Prop :=
  RowWF rf.ax ∧ RowWF rf.cx ∧ RowWF rf.dx ∧ RowWF rf.bx
  ∧ RowWF rf.sp ∧ RowWF rf.bp ∧ RowWF rf.si ∧ RowWF rf.di

/-!
Helper lemmas shared by the claim theorems.
-/

/-- A single-bit mask test is a testBit. -/
theorem and_pow_ne_zero (n k : Nat) : (n &&& 2 ^ k != 0) = n.testBit k := by
  rw [Nat.and_two_pow]
  cases h : n.testBit k <;> simp [Nat.ne_of_gt (Nat.two_pow_pos k)]

/-- Mask 2 tests bit 1. -/
theorem and_two_ne_zero (n : Nat) : (n &&& 2 != 0) = n.testBit 1 := by
  simpa using and_pow_ne_zero n 1

/-- Mask 4 tests bit 2. -/
theorem and_four_ne_zero (n : Nat) : (n &&& 4 != 0) = n.testBit 2 := by
  simpa using and_pow_ne_zero n 2

/-- Mask 8 tests bit 3. -/
theorem and_eight_ne_zero (n : Nat) : (n &&& 8 != 0) = n.testBit 3 := by
  simpa using and_pow_ne_zero n 3

/-- RegisterFile.set never touches the flags byte. -/
theorem flags_set (rf : RegisterFile) (r : Register) (v : Nat) :
    (rf.set r v).flags = rf.flags := by
  cases r <;> rfl

/-- move_data never touches the flags byte, hence preserves every flag. -/
theorem get_flag_move_data (d : Register) (v : Int) (m : RegisterFile)
    (f : Flag) : (move_data d v m).get_flag f = m.get_flag f := by
  unfold RegisterFile.get_flag move_data
  rw [flags_set]

/-- move_ip_by_n never touches the flags byte. -/
theorem get_flag_move_ip (rf : RegisterFile) (n : Int) (f : Flag) :
    (rf.move_ip_by_n n).get_flag f = rf.get_flag f := rfl

/-- set_flags_from_result computes exactly the three documented flags:
Zero iff the result is 0, Sign iff it is negative, Parity iff it is even,
regardless of the previous flags byte. -/
theorem set_flags_from_result_spec (rf : RegisterFile) (result : Int) :
    (((rf.set_flags_from_result result).get_flag .Zero = true) ↔ result = 0)
    ∧ (((rf.set_flags_from_result result).get_flag .Sign = true) ↔ result < 0)
    ∧ (((rf.set_flags_from_result result).get_flag .Parity = true)
        ↔ result % 2 = 0) := by
  unfold RegisterFile.set_flags_from_result RegisterFile.set_flag
    RegisterFile.clear_flag RegisterFile.get_flag Flag.val
  refine ⟨?_, ?_, ?_⟩ <;>
  · repeat' split
    all_goals
      simp only [and_two_ne_zero, and_four_ne_zero, and_eight_ne_zero,
        Nat.testBit_or, Nat.testBit_and]
    all_goals
      simp_all [Nat.testBit_to_div_mod]

/-- Reinterpreting an in-range i16 value through u16 is the identity. -/
theorem toSigned16_toUnsigned16 (a : Int) (h1 : -32768 ≤ a)
    (h2 : a < 32768) : toSigned16 (toUnsigned16 a) = a := by
  unfold toSigned16 toUnsigned16
  split <;> omega

/-- Shifting a high byte left by 8 and or-ing in a value below 256 is the
same as scaling by 256 and adding. -/
theorem shiftLeft8_or_eq (a b : Nat) (hb : b < 256) :
    a <<< 8 ||| b = 256 * a + b := by
  have h : b < 2 ^ 8 := by simpa using hb
  rw [Nat.shiftLeft_eq, Nat.mul_comm, ← Nat.mul_add_lt_is_or h a]

/-- The zeroed register file is well formed. -/
theorem wf_new : RegisterFileWF RegisterFile.new := by
  refine ⟨?_, ?_, ?_, ?_, ?_, ?_, ?_, ?_⟩ <;>
    exact ⟨by decide, by decide⟩

/-- RegisterFile.set preserves well-formedness: every stored byte goes
through a mod-256 truncation. -/
theorem wf_set (rf : RegisterFile) (r : Register) (v : Nat)
    (h : RegisterFileWF rf) : RegisterFileWF (rf.set r v) := by
  cases r <;>
    simp_all [RegisterFileWF, RowWF, RegisterFile.set, RegisterRow.set_low,
      RegisterRow.set_high, RegisterRow.from_bytes] <;>
    omega

/-- Folding set operations over a well-formed file stays well formed. -/
theorem wf_foldl (ops : List (Register × Nat)) :
    ∀ rf, RegisterFileWF rf →
      RegisterFileWF (ops.foldl (fun rf e => rf.set e.1 e.2) rf) := by
  induction ops with
  | nil => intro rf h; simpa using h
  | cons e t ih => intro rf h; exact ih _ (wf_set rf e.1 e.2 h)

/-- Every state reachable from the zeroed file by set operations is well
formed. -/
theorem wf_applyOps (ops : List (Register × Nat)) :
    RegisterFileWF (applyOps ops) :=
  wf_foldl ops _ wf_new

/-- In a well-formed file each general word register reads as its high
byte shifted left 8, or-ed with its low byte. -/
theorem get_word_eq_or (rf : RegisterFile) (h : RegisterFileWF rf) :
    rf.get .AX = (rf.get .AH) <<< 8 ||| rf.get .AL
    ∧ rf.get .BX = (rf.get .BH) <<< 8 ||| rf.get .BL
    ∧ rf.get .CX = (rf.get .CH) <<< 8 ||| rf.get .CL
    ∧ rf.get .DX = (rf.get .DH) <<< 8 ||| rf.get .DL := by
  obtain ⟨⟨hal, -⟩, ⟨hcl, -⟩, ⟨hdl, -⟩, ⟨hbl, -⟩, -⟩ := h
  refine ⟨?_, ?_, ?_, ?_⟩ <;>
    simp only [RegisterFile.get, RegisterRow.get]
  · rw [shiftLeft8_or_eq _ _ hal]; omega
  · rw [shiftLeft8_or_eq _ _ hbl]; omega
  · rw [shiftLeft8_or_eq _ _ hcl]; omega
  · rw [shiftLeft8_or_eq _ _ hdl]; omega

/-!
Claim theorems.
-/

/-- Claim C1, counterexample: with the pattern 1 (length 1) and the pattern
11 (length 2) inserted, both match the leading bits of the byte 0b11000000,
the longest being the 2-bit pattern with class MovIRm; match_bits instead
returns the 1-bit pattern's class MovIR with length 1, so it does not
return the longest inserted matching pattern. -/
theorem match_bits_shortest_counterexample :
    twoPatternTrie.match_bits 0b11000000 = some (.MovIR, 1)
    ∧ longestInsertedMatch twoPatternInserts 0b11000000 = some (.MovIRm, 2)
    ∧ some ((Opcode.MovIR : Opcode), (1 : Nat)) ≠ some (Opcode.MovIRm, 2) := by
  decide

set_option maxRecDepth 10000 in
/-- Claim C1, amended: match_bits returns the first terminal reached
descending most-significant-bit first, i.e. the shortest inserted pattern
that is a prefix of the byte's bits; since no pattern registered in
OPCODE_TRIE is a proper prefix of another registered pattern, this
coincides with the longest inserted match for every input byte: for each
byte, match_bits on OPCODE_TRIE returns exactly the class and length of
the longest inserted pattern matching the byte's leading bits, and none
when no inserted pattern is a prefix of the byte's bits. -/
theorem opcode_trie_matches_longest (byte : Nat) (h : byte < 256) :
    OPCODE_TRIE.match_bits byte = longestInsertedMatch opcodeInserts byte := by
  have hall : ∀ b : Nat, b < 256 →
      OPCODE_TRIE.match_bits b = longestInsertedMatch opcodeInserts b := by
    decide
  exact hall byte h

/-- Witness for Claim C1's amended theorem at the byte 0x04 (add r/m8, r8
versus the immediate-to-accumulator pattern next to it in the table). -/
theorem opcode_trie_matches_longest_witness :
    OPCODE_TRIE.match_bits 0x04 = longestInsertedMatch opcodeInserts 0x04 :=
  opcode_trie_matches_longest 0x04 (by norm_num)

/-- Claim C2: at the mode byte 0b00000110 (mod=00, rm=110) the
MovIRm decode arm reads 0 displacement bytes, while the arithmetic
immediate arm and the register/memory-to-register arm read the 2 bytes of
the direct-address special case; the claim's rule fails for the MOV
immediate-to-register/memory opcode class. -/
theorem movirm_direct_address_missing :
    movIRmDisplacementRegisters 0b00000110 = 0
    ∧ arithIRmDisplacementRegisters 0b00000110 = 2
    ∧ rmrDisplacementRegisters 0b00000110 = 2 := by decide

/-- Claim C3: evaluating the CMP forms at concrete operands. The immediate
form CmpIRm (bytes 83 F9 05, cmp cx, 5 with CX = 0) sets the flags of the
subtraction but also writes the result 0xFFFB into CX, because
perform_arithmetic skips the write-back only for CmpRmR; the accumulator
form CmpIA (bytes 3C 05, cmp al, 5) moves the immediate 5 into AL and
leaves the flags byte at 0; only the register form CmpRmR leaves its
destination unchanged. -/
theorem cmp_forms_modify_destination :
    (perform_arithmetic .CmpIRm .CX 5 RegisterFile.new).map
        (fun rf => (rf.get .CX, rf.get_flag .Zero, rf.get_flag .Sign))
      = .ok (65531, false, true)
    ∧ (process_ir [0x3C, 0x05] 2 .CmpIA RegisterFile.new).map
        (fun rf => (rf.get .AL, rf.flags)) = .ok (5, 0)
    ∧ (perform_arithmetic .CmpRmR .CX 5 RegisterFile.new).map
        (fun rf => rf.get .CX) = .ok 0 := by decide

/-- Claim C8: evaluating the sign-extension of arithmetic immediates with
s = 1, w = 1. In register mode (mode 0b11) the immediate byte 0x80 is
sign-extended to -128 (equivalently, to the 16-bit value with high byte
0xFF), as the claim states; but in mode 0b10 (16-bit displacement, bytes
83 84 00 00 80) the traced immediate is the zero-extension 128 of the
byte, not its sign extension -128, so the claim fails for that addressing
mode. -/
theorem irm_immediate_sign_extension_eval :
    irmMode3Value [0x83, 0xC6, 0x02] 1 1 = 2
    ∧ irmMode3Value [0x83, 0xC0, 0x80] 1 1 = -128
    ∧ signExtend8 0x80 = -128
    ∧ toUnsigned16 (signExtend8 0x80) = 0xFF * 256 + 0x80
    ∧ irmMode2Value [0x83, 0x84, 0x00, 0x00, 0x80] true = 128
    ∧ (128 : Int) ≠ signExtend8 0x80 := by decide

/-- Claim C5: after every sequence of set operations from the zeroed file,
each general word register reads as its high byte shifted left 8 or-ed
with its low byte; setting a byte register overwrites only its own half
and leaves the sibling half unchanged; setting a word register replaces
both halves; and the concrete aliasing examples from the spec hold. -/
theorem register_byte_word_aliasing :
    (∀ ops : List (Register × Nat),
        (applyOps ops).get .AX
          = ((applyOps ops).get .AH) <<< 8 ||| (applyOps ops).get .AL
        ∧ (applyOps ops).get .BX
          = ((applyOps ops).get .BH) <<< 8 ||| (applyOps ops).get .BL
        ∧ (applyOps ops).get .CX
          = ((applyOps ops).get .CH) <<< 8 ||| (applyOps ops).get .CL
        ∧ (applyOps ops).get .DX
          = ((applyOps ops).get .DH) <<< 8 ||| (applyOps ops).get .DL)
    ∧ (∀ rf : RegisterFile, ∀ v : Nat,
        (rf.set .AL v).get .AH = rf.get .AH
        ∧ (rf.set .AH v).get .AL = rf.get .AL
        ∧ (rf.set .BL v).get .BH = rf.get .BH
        ∧ (rf.set .BH v).get .BL = rf.get .BL
        ∧ (rf.set .CL v).get .CH = rf.get .CH
        ∧ (rf.set .CH v).get .CL = rf.get .CL
        ∧ (rf.set .DL v).get .DH = rf.get .DH
        ∧ (rf.set .DH v).get .DL = rf.get .DL
        ∧ (rf.set .AL v).get .AL = v % 256
        ∧ (rf.set .AH v).get .AH = v % 256
        ∧ (rf.set .AX v).get .AL = v % 256
        ∧ (rf.set .AX v).get .AH = v / 256 % 256)
    ∧ ((RegisterFile.new.set .AL 0x12).set .AH 0x34).get .AX = 0x3412
    ∧ (RegisterFile.new.set .AX 0xABCD).get .AL = 0xCD
    ∧ (RegisterFile.new.set .AX 0xABCD).get .AH = 0xAB := by
  refine ⟨fun ops => get_word_eq_or _ (wf_applyOps ops),
    fun rf v => ?_, by decide, by decide, by decide⟩
  exact ⟨rfl, rfl, rfl, rfl, rfl, rfl, rfl, rfl, rfl, rfl, rfl, rfl⟩

/-- The instruction pointer after move_ip_by_n. -/
theorem ip_move_ip (rf : RegisterFile) (n : Int) :
    (rf.move_ip_by_n n).ip = (((rf.ip : Int) + n) % 65536).toNat := rfl

/-- Whether or not the conditional write-back of perform_arithmetic
happens, the flags byte set beforehand is unchanged. -/
theorem get_flag_ite_move_data (c : Prop) [Decidable c] (d : Register)
    (v : Int) (m : RegisterFile) (f : Flag) :
    (if c then move_data d v m else m).get_flag f = m.get_flag f := by
  split
  · exact get_flag_move_data d v m f
  · rfl

/-- Claim C4: executing SUB (any of the three SUB opcode forms handled by
perform_arithmetic) with in-range signed destination value a and source
value b succeeds and sets Zero iff a = b, Sign iff the 16-bit wraparound
result of a - b is negative, and Parity iff that result is even. -/
theorem sub_flags_zero_sign_parity (op : Opcode) (rf : RegisterFile)
    (dest : Register) (a b : Int)
    (hop : op = .SubRmR ∨ op = .SubIA ∨ op = .SubIRm)
    (ha1 : -32768 ≤ a) (ha2 : a < 32768)
    (hb1 : -32768 ≤ b) (hb2 : b < 32768)
    (hdest : rf.get dest = toUnsigned16 a) :
    ∃ rf', perform_arithmetic op dest b rf = .ok rf'
      ∧ (rf'.get_flag .Zero = true ↔ a = b)
      ∧ (rf'.get_flag .Sign = true ↔ wrap16 (a - b) < 0)
      ∧ (rf'.get_flag .Parity = true ↔ wrap16 (a - b) % 2 = 0) := by
  have hcur : toSigned16 (rf.get dest) = a := by
    rw [hdest]; exact toSigned16_toUnsigned16 a ha1 ha2
  rcases hop with rfl | rfl | rfl <;>
  · refine ⟨_, rfl, ?_, ?_, ?_⟩ <;>
      rw [get_flag_ite_move_data, hcur]
    · rw [(set_flags_from_result_spec rf (wrap16 (a - b))).1]
      unfold wrap16
      omega
    · exact (set_flags_from_result_spec rf (wrap16 (a - b))).2.1
    · exact (set_flags_from_result_spec rf (wrap16 (a - b))).2.2

/-- Witness for Claim C4 at a = 5, b = 3 on destination AX. -/
theorem sub_flags_zero_sign_parity_witness :
    ∃ rf', perform_arithmetic .SubRmR .AX 3
        (RegisterFile.new.set .AX (toUnsigned16 5)) = .ok rf'
      ∧ (rf'.get_flag .Zero = true ↔ (5 : Int) = 3)
      ∧ (rf'.get_flag .Sign = true ↔ wrap16 ((5 : Int) - 3) < 0)
      ∧ (rf'.get_flag .Parity = true ↔ wrap16 ((5 : Int) - 3) % 2 = 0) :=
  sub_flags_zero_sign_parity .SubRmR _ .AX 5 3 (Or.inl rfl) (by norm_num)
    (by norm_num) (by norm_num) (by norm_num) (by decide)

/-- Claim C6: executing jne with displacement byte db at instruction
pointer p leaves ip at p + 2 when the Zero flag is set and at
p + 2 + signExtend8 db (mod 2^16) when it is clear — the 2-byte advance is
applied before the displacement — and in particular the displacement byte
0xFC (-4) with Zero clear leaves ip at p - 2. -/
theorem jne_ip_semantics (rf : RegisterFile) (b0 db : Nat)
    (hdb : db < 256) (hip : rf.ip + 2 < 65536) :
    ∃ rf', process_jmp [b0, db] 2 .Jne rf = .ok rf'
      ∧ (rf.get_flag .Zero = true → rf'.ip = rf.ip + 2)
      ∧ (rf.get_flag .Zero = false →
          (rf'.ip : Int) = ((rf.ip : Int) + 2 + signExtend8 db) % 65536)
      ∧ (rf.get_flag .Zero = false → db = 0xFC → 2 ≤ rf.ip →
          rf'.ip = rf.ip - 2) := by
  have hse1 : -128 ≤ signExtend8 db := by unfold signExtend8; split <;> omega
  have hse2 : signExtend8 db < 128 := by unfold signExtend8; split <;> omega
  have hred : process_jmp [b0, db] 2 .Jne rf
      = .ok (if rf.get_flag .Zero then rf.move_ip_by_n 2
             else (rf.move_ip_by_n 2).move_ip_by_n (signExtend8 db)) := by
    unfold process_jmp
    cases hz : rf.get_flag .Zero <;>
      simp [get_flag_move_ip, hz, List.getD, pure, Except.pure]
  refine ⟨_, hred, ?_, ?_, ?_⟩
  · intro hz
    rw [if_pos hz, ip_move_ip]
    omega
  · intro hz
    rw [if_neg (by simp [hz]), ip_move_ip, ip_move_ip]
    omega
  · intro hz hdb4 hip2
    subst hdb4
    have h4 : signExtend8 252 = -4 := by decide
    rw [if_neg (by simp [hz]), ip_move_ip, ip_move_ip, h4]
    omega

/-- Witness for Claim C6 at ip = 10, displacement 0xFC, Zero clear. -/
theorem jne_ip_semantics_witness :
    ∃ rf', process_jmp [0x75, 0xFC] 2 .Jne
        { RegisterFile.new with ip := 10 } = .ok rf'
      ∧ (RegisterFile.get_flag { RegisterFile.new with ip := 10 } .Zero = true
          → rf'.ip = 10 + 2)
      ∧ (RegisterFile.get_flag { RegisterFile.new with ip := 10 } .Zero = false
          → (rf'.ip : Int) = ((10 : Int) + 2 + signExtend8 0xFC) % 65536)
      ∧ (RegisterFile.get_flag { RegisterFile.new with ip := 10 } .Zero = false
          → 0xFC = 0xFC → 2 ≤ 10 → rf'.ip = 10 - 2) :=
  jne_ip_semantics { RegisterFile.new with ip := 10 } 0x75 0xFC
    (by norm_num) (by norm_num)

/-- Claim C7, counterexample: je (bytes 74 FC) is not executed as a traced
no-op that lets the run continue; process_jmp aborts on it. -/
theorem je_aborts_counterexample :
    (process_jmp [0x74, 0xFC] 2 .Je RegisterFile.new).isOk = false := by
  decide

/-- Claim C7, amended: for every conditional jump or loop opcode other
than jne, process_jmp aborts the run with an unsupported-jump panic (after
the ip advance, before printing the trace line), for every displacement
byte and machine state; the branch is never taken and nothing further is
executed. -/
theorem non_jne_jump_aborts (op : Opcode)
    (hop : op = .Je ∨ op = .Jl ∨ op = .Jle ∨ op = .Jb ∨ op = .Jbe
      ∨ op = .Jp ∨ op = .Jo ∨ op = .Js ∨ op = .Jnl ∨ op = .Jg ∨ op = .Jnb
      ∨ op = .Ja ∨ op = .Jnp ∨ op = .Jno ∨ op = .Jns ∨ op = .Loop
      ∨ op = .Loopz ∨ op = .Loopnz ∨ op = .Jcxz)
    (bytes : List Nat) (rf : RegisterFile) :
    (process_jmp bytes 2 op rf).isOk = false := by
  rcases hop with rfl | rfl | rfl | rfl | rfl | rfl | rfl | rfl | rfl | rfl
    | rfl | rfl | rfl | rfl | rfl | rfl | rfl | rfl | rfl <;> rfl

/-- Witness for Claim C7's amended theorem at jl with displacement 0x10. -/
theorem non_jne_jump_aborts_witness :
    (process_jmp [0x7C, 0x10] 2 .Jl RegisterFile.new).isOk = false :=
  non_jne_jump_aborts .Jl (by decide) [0x7C, 0x10] RegisterFile.new

/-- Claim C9: for every register index below 8 and word flag below 2,
retrieve_register returns Ok with the register at that position of the
2-by-8 REGISTERS table; and for indices produced by the decode masks
(reg = (b >> 3) & 0b111, rm = b & 0b111, w = b & 0b1) the error branch is
unreachable: the lookup always succeeds. -/
theorem retrieve_register_in_table :
    (∀ i : Nat, i < 8 → ∀ w : Nat, w < 2 →
        retrieve_register i w = .ok ((REGISTERS.getD w []).getD i .AL))
    ∧ (∀ b0 b1 : Nat,
        (retrieve_register ((b1 >>> 3) &&& 0b111) (b0 &&& 0b1)).isOk = true
        ∧ (retrieve_register (b1 &&& 0b111) (b0 &&& 0b1)).isOk = true) := by
  have hall : ∀ i : Nat, i < 8 → ∀ w : Nat, w < 2 →
      retrieve_register i w = .ok ((REGISTERS.getD w []).getD i .AL) := by
    decide
  refine ⟨hall, fun b0 b1 => ?_⟩
  have h1 : (b1 >>> 3) &&& 7 < 8 :=
    Nat.lt_succ_of_le (Nat.and_le_right)
  have h2 : b1 &&& 7 < 8 := Nat.lt_succ_of_le (Nat.and_le_right)
  have h3 : b0 &&& 1 < 2 := Nat.lt_succ_of_le (Nat.and_le_right)
  constructor
  · rw [hall _ h1 _ h3]; rfl
  · rw [hall _ h2 _ h3]; rfl

/-- Witness for Claim C9 at index 1, word flag 1 (register CX) and at the
mode byte 0xD8 with first byte 0x89. -/
theorem retrieve_register_in_table_witness :
    retrieve_register 1 1 = .ok ((REGISTERS.getD 1 []).getD 1 Register.AL)
    ∧ (retrieve_register ((0xD8 >>> 3) &&& 0b111) (0x89 &&& 0b1)).isOk
        = true :=
  ⟨retrieve_register_in_table.1 1 (by norm_num) 1 (by norm_num),
    (retrieve_register_in_table.2 0x89 0xD8).1⟩

set_option maxRecDepth 10000 in
/-- Claim C10: every byte whose top 6 bits are 100000 is classified as the
AddIRm opcode class by the trie; process_irm then selects the executed
operation from the reg field of the second byte: 000 add, 101 sub,
111 cmp, and every other reg value aborts the run. -/
theorem arith_irm_reg_dispatch :
    (∀ b0 : Nat, b0 < 256 → b0 >>> 2 = 0b100000 →
        OPCODE_TRIE.match_bits b0 = some (.AddIRm, 6))
    ∧ irmSelectOp .AddIRm 0b000 = .ok .AddIRm
    ∧ irmSelectOp .AddIRm 0b101 = .ok .SubIRm
    ∧ irmSelectOp .AddIRm 0b111 = .ok .CmpIRm
    ∧ (∀ r : Nat, r = 1 ∨ r = 2 ∨ r = 3 ∨ r = 4 ∨ r = 6 →
        (irmSelectOp .AddIRm r).isOk = false) := by
  refine ⟨by decide, by decide, by decide, by decide, ?_⟩
  rintro r (rfl | rfl | rfl | rfl | rfl) <;> decide

/-- Witness for Claim C10 at the leading byte 0x83 and the reg value 2. -/
theorem arith_irm_reg_dispatch_witness :
    OPCODE_TRIE.match_bits 0x83 = some (.AddIRm, 6)
    ∧ (irmSelectOp .AddIRm 2).isOk = false :=
  ⟨arith_irm_reg_dispatch.1 0x83 (by norm_num) (by decide),
    arith_irm_reg_dispatch.2.2.2.2 2 (by norm_num)⟩

end Emu8086

